import Mathlib

/-!
Shallow embedding of the media aggregation pipeline of the daily-debrief
repository: the five source adapters (Food Safety News, Food Safety Magazine,
openFDA recalls, USDA FSIS recalls, CDC outbreaks), the shared text
normalizer helpers, the similarity/dedup engine and the aggregator.

Conventions used throughout:
- JavaScript strings are `String`; nullable/optional values are `Option _`.
  JavaScript truthiness is modelled explicitly (`jsTruthyStr`, `jsTruthyInt`):
  `null`/`undefined`, the empty string and the number 0 are falsy.
- Regular-expression tests over text are translated into explicit scanning
  functions over `List Char` (the kernel representation of `String`).
- `String.prototype.toLowerCase` is modelled by the ASCII `Char.toLower`;
  every vocabulary entry and keyword in the pipeline is ASCII.
-/

namespace DailyDebrief

/-- JavaScript truthiness of a nullable string: null/undefined and "" are falsy. -/
def jsTruthyStr : Option String → Bool
  | none => false
  | some s => s != ""

/-- JavaScript truthiness of a nullable integer: null/undefined and 0 are falsy. -/
def jsTruthyInt : Option Int → Bool
  | none => false
  | some n => n != 0

/-- JavaScript `a || b` on nullable strings (used for fallback chains). -/
def jsOrStr (a b : Option String) : Option String :=
  if jsTruthyStr a then a else b

/-- Lowercase a string character-wise (ASCII, matching `toLowerCase` on ASCII text). -/
def strLower (s : String) : String :=
  String.mk (s.data.map Char.toLower)

/-- Membership of `c` in the JavaScript `\s` class, restricted to the ASCII part. -/
def isWsChar (c : Char) : Bool :=
  c == ' ' || c == '\t' || c == '\n' || c == '\r' || c == '\x0b' || c == '\x0c'

/-- ASCII decimal digit test (JavaScript `\d`). -/
def isDigitChar (c : Char) : Bool :=
  '0' ≤ c && c ≤ '9'

/-- Lower-case letter or digit (the characters kept by `replace(/[^a-z0-9\s]/g)`,
besides whitespace, once the text has been lowercased). -/
def isLowerAlnum (c : Char) : Bool :=
  ('a' ≤ c && c ≤ 'z') || isDigitChar c

/-- JavaScript word character `\w` = `[A-Za-z0-9_]`, used for `\b` boundaries. -/
def isWordChar (c : Char) : Bool :=
  ('a' ≤ c && c ≤ 'z') || ('A' ≤ c && c ≤ 'Z') || isDigitChar c || c == '_'

/-- `needle` is a prefix of `hay` (character lists). -/
def hasPrefixL : List Char → List Char → Bool
  | [], _ => true
  | _ :: _, [] => false
  | a :: as, b :: bs => a == b && hasPrefixL as bs

/-- Does `p` hold of some suffix of the list (including the list itself and `[]`)? -/
def anySuffixP (p : List Char → Bool) : List Char → Bool
  | [] => p []
  | c :: cs => p (c :: cs) || anySuffixP p cs

/-- Substring test on character lists: JavaScript `hay.includes(needle)`. -/
def hasSubL (needle hay : List Char) : Bool :=
  anySuffixP (hasPrefixL needle) hay

/-- Substring test on strings: JavaScript `hay.includes(needle)`. -/
def hasSubStr (needle hay : String) : Bool :=
  hasSubL needle.data hay.data

/-- Index of the first occurrence of `needle` in the list, JavaScript `indexOf`. -/
def firstIdxOfSubL (needle : List Char) : List Char → Option Nat
  | [] => if hasPrefixL needle [] then some 0 else none
  | c :: cs =>
    if hasPrefixL needle (c :: cs) then some 0
    else (firstIdxOfSubL needle cs).map (· + 1)

/-- Index of the first occurrence of `needle` in `hay` (strings). -/
def firstIdxOfSub (needle hay : String) : Option Nat :=
  firstIdxOfSubL needle.data hay.data

/-- Order-preserving removal of elements already seen: the model of iterating a
JavaScript `Set` built by insertion (`[...new Set(list)]` keeps first occurrences). -/
def dedupSeen [DecidableEq α] (seen : List α) : List α → List α
  | [] => []
  | x :: xs => if x ∈ seen then dedupSeen seen xs else x :: dedupSeen (x :: seen) xs

/-- `[...new Set(list)]`: the list with later duplicates removed. -/
def dedupKeep [DecidableEq α] (l : List α) : List α :=
  dedupSeen [] l

/-- Split a character list into its maximal whitespace-free runs.  Equivalent to
JavaScript `split(/\s+/)` followed by discarding empty tokens (the only empty token
`split` can produce is a leading one, removed downstream by the length filter). -/
def splitWsGo (cur : List Char) : List Char → List (List Char)
  | [] => if cur == [] then [] else [cur.reverse]
  | c :: cs =>
    if isWsChar c then
      (if cur == [] then splitWsGo [] cs else cur.reverse :: splitWsGo [] cs)
    else splitWsGo (c :: cur) cs

/-- Split into maximal whitespace-free runs. -/
def splitWsL (l : List Char) : List (List Char) :=
  splitWsGo [] l

-- ─── Text similarity (fetch_media_sources.js, textSimilarity) ───

/-- The word set of `textSimilarity`: lowercase, strip characters outside
`[a-z0-9\s]`, split on whitespace, keep tokens longer than 2 characters,
collect into a set (first-occurrence order). -/
def simWords (s : String) : List (List Char) :=
  dedupKeep (((splitWsL ((strLower s).data.filter
    (fun c => isLowerAlnum c || isWsChar c))).filter (fun w => w.length > 2)))

/-- Size of the intersection of two word sets (both duplicate-free). -/
def countInter (A B : List (List Char)) : Nat :=
  (A.filter (fun w => w ∈ B)).length

/-- `textSimilarity(a, b) > num/den`, computed exactly over the rationals.
The source computes `intersection / Math.min(|A|, |B|)` in double precision and
compares against the literals 0.5 / 0.6; for the integer intersection counts and
set sizes arising here the double comparison agrees with the exact rational one
(the ratio is never within one ulp of the threshold unless exactly equal, and
equality gives `false` under both). Early returns: a falsy argument or an empty
word set yields similarity 0, hence `false` for the positive thresholds used. -/
def textSimilarityGt (a b : String) (num den : Nat) : Bool :=
  if a == "" || b == "" then false
  else
    let A := simWords a
    let B := simWords b
    if A.length == 0 || B.length == 0 then false
    else decide (den * countInter A B > num * min A.length B.length)

-- ─── Pathogen vocabulary and extraction ───

/-- The pathogen vocabulary embedded (as an identical literal) in the Food Safety
News, Food Safety Magazine, FDA recalls and CDC outbreaks adapters: 17 lowercase
entries, three of which are spelling variants of E. coli. -/
def PATHOGENS : List String :=
  ["salmonella", "e. coli", "e.coli", "escherichia coli", "listeria",
   "campylobacter", "norovirus", "clostridium", "botulism", "vibrio",
   "staphylococcus", "shigella", "hepatitis a", "cyclospora", "cronobacter",
   "bacillus cereus", "yersinia"]

/-- The pathogen vocabulary embedded in the FSIS adapter (fetch_fsis_recalls.js):
this copy stops after cronobacter — it lacks the bacillus cereus and yersinia
entries present in the other four adapters. -/
def PATHOGENS_FSIS : List String :=
  ["salmonella", "e. coli", "e.coli", "escherichia coli", "listeria",
   "campylobacter", "norovirus", "clostridium", "botulism", "vibrio",
   "staphylococcus", "shigella", "hepatitis a", "cyclospora", "cronobacter"]

/-- `p.charAt(0).toUpperCase() + p.slice(1)`. -/
def capitalizeFirst (s : String) : String :=
  match s.data with
  | [] => ""
  | c :: cs => String.mk (c.toUpper :: cs)

/-- Canonical display form returned for a matched vocabulary entry: the three
E. coli spellings collapse to "E. coli", anything else gets its first letter
capitalized. -/
def canonPathogen (p : String) : String :=
  if p == "e. coli" || p == "e.coli" || p == "escherichia coli" then "E. coli"
  else capitalizeFirst p

/-- The body shared by every adapter's `extractPathogen`: guard on falsy text,
lowercase, then scan the vocabulary in list order and return the canonical form
of the first entry that occurs in the text. -/
def extractPathogenCore (vocab : List String) (text : String) : Option String :=
  if text == "" then none
  else (vocab.find? (fun p => hasSubStr p (strLower text))).map canonPathogen

/-- `extractPathogen` as defined (identically) in the fsn, fsm, fda and cdc
adapters, over the full 17-entry vocabulary. -/
def extractPathogen (text : String) : Option String :=
  extractPathogenCore PATHOGENS text

/-- `extractPathogen` as defined in the FSIS adapter, over its shorter vocabulary. -/
def fsis_extractPathogen (text : String) : Option String :=
  extractPathogenCore PATHOGENS_FSIS text

-- ─── State code extraction ───

/-- The 50 US state codes plus DC, in the order of the regex alternation shared by
the fda, fsis and cdc adapters. -/
def STATE_CODES : List String :=
  ["AL", "AK", "AZ", "AR", "CA", "CO", "CT", "DE", "FL", "GA", "HI", "ID", "IL",
   "IN", "IA", "KS", "KY", "LA", "ME", "MD", "MA", "MI", "MN", "MS", "MO", "MT",
   "NE", "NV", "NH", "NJ", "NM", "NY", "NC", "ND", "OH", "OK", "OR", "PA", "RI",
   "SC", "SD", "TN", "TX", "UT", "VT", "VA", "WA", "WV", "WI", "WY", "DC"]

/-- A `\b` word boundary holds before the position starting this suffix when the
next character is not a word character (or the text ends). -/
def boundaryAfter : List Char → Bool
  | [] => true
  | d :: _ => !isWordChar d

/-- Global scan of `/\b(AL|AK|...|DC)\b/g`: at each position preceded by a
non-word character (or the start), match a two-letter code followed by a word
boundary; after a match the scan resumes past the matched code. -/
def stateScan (prevWord : Bool) : List Char → List String
  | [] => []
  | c :: cs =>
    if !prevWord then
      match STATE_CODES.find? (fun code =>
          hasPrefixL code.data (c :: cs) && boundaryAfter (cs.drop 1)) with
      | some code => code :: stateScan true (cs.drop 1)
      | none => stateScan (isWordChar c) cs
    else stateScan (isWordChar c) cs
termination_by l => l.length
decreasing_by
  · simp only [List.length_drop, List.length_cons]
    omega
  · simp
  · simp

/-- `extractStates` as defined (identically) in the fda, fsis and cdc adapters:
regex-match all word-bounded state codes, keep first occurrences, return null on
falsy input or when nothing matched. -/
def extractStates (text : Option String) : Option (List String) :=
  if !jsTruthyStr text then none
  else
    let states := dedupKeep (stateScan false (text.getD "").data)
    if states.length > 0 then some states else none

-- ─── Case count extraction (cdc adapter) ───

/-- The keyword alternation of `/(\d+)\s*(case|ill|sick|infected|people|person)/i`. -/
def CASE_WORDS : List String := ["case", "ill", "sick", "infected", "people", "person"]

/-- Digit run to number, JavaScript `parseInt` on a nonempty digit string. -/
def digitsToNat (l : List Char) : Nat :=
  l.foldl (fun acc c => acc * 10 + (c.toNat - '0'.toNat)) 0

/-- First match of `/(\d+)\s*(case|ill|sick|infected|people|person)/i` over
lowercased text: at each position, greedily take a digit run, skip whitespace,
and test the keyword alternation; on failure the scan advances one character. -/
def caseCountScan : List Char → Option Nat
  | [] => none
  | c :: cs =>
    if isDigitChar c then
      let ds := (c :: cs).takeWhile isDigitChar
      let rest := ((c :: cs).dropWhile isDigitChar).dropWhile isWsChar
      if CASE_WORDS.any (fun w => hasPrefixL w.data rest) then some (digitsToNat ds)
      else caseCountScan cs
    else caseCountScan cs

/-- `extractCaseCount` of the cdc adapter: null on falsy text, else the captured
digit group of the first case-pattern match. -/
def extractCaseCount (text : String) : Option Int :=
  if text == "" then none
  else (caseCountScan (strLower text).data).map Int.ofNat

-- ─── Severity and category heuristics ───

/-- `classificationToSeverity`, identical in the fda and fsis adapters: falsy
code defaults to medium; otherwise case-sensitive substring tests on "I", "II",
"III" pick high/medium/low, with medium as the final default. -/
def classificationToSeverity (classification : Option String) : String :=
  if !jsTruthyStr classification then "medium"
  else
    let s := classification.getD ""
    if hasSubStr "I" s && !hasSubStr "II" s && !hasSubStr "III" s then "high"
    else if hasSubStr "II" s && !hasSubStr "III" s then "medium"
    else if hasSubStr "III" s then "low"
    else "medium"

/-- `determineSeverity` of the cdc adapter (fetch_cdc_outbreaks.js): death/died/
fatal give high, hospitalized/hospital also give high, outbreak/investigation
give medium, anything else low; falsy text defaults to medium. -/
def determineSeverity_cdc (text : String) : String :=
  if text == "" then "medium"
  else
    let lower := strLower text
    if hasSubStr "death" lower || hasSubStr "died" lower || hasSubStr "fatal" lower then "high"
    else if hasSubStr "hospitalized" lower || hasSubStr "hospital" lower then "high"
    else if hasSubStr "outbreak" lower || hasSubStr "investigation" lower then "medium"
    else "low"

/-- `determineSeverity` of the news adapter (fetch_food_safety_news.js); the
category argument of the source is unused by its body and omitted here. -/
def determineSeverity_fsn (title description : String) : String :=
  let text := strLower (title ++ " " ++ description)
  if hasSubStr "death" text || hasSubStr "died" text || hasSubStr "fatal" text
      || hasSubStr "class i" text then "high"
  else if hasSubStr "hospitalized" text || hasSubStr "outbreak" text
      || hasSubStr "recall" text || hasSubStr "contaminated" text then "medium"
  else "low"

/-- `determineSeverity` of the magazine adapter (fetch_food_safety_magazine.js),
textually identical to the news adapter's body. -/
def determineSeverity_fsm (title description : String) : String :=
  let text := strLower (title ++ " " ++ description)
  if hasSubStr "death" text || hasSubStr "died" text || hasSubStr "fatal" text
      || hasSubStr "class i" text then "high"
  else if hasSubStr "hospitalized" text || hasSubStr "outbreak" text
      || hasSubStr "recall" text || hasSubStr "contaminated" text then "medium"
  else "low"

/-- `categorizeArticle` of the news adapter: keyword scan over title,
description and the joined feed categories. -/
def categorizeArticle (title description : String) (categories : List String) : String :=
  let text := strLower (title ++ " " ++ description ++ " " ++ String.intercalate " " categories)
  if hasSubStr "recall" text || hasSubStr "recalled" text then "Recall"
  else if hasSubStr "outbreak" text || hasSubStr "illness" text || hasSubStr "sick" text
      || hasSubStr "hospitalized" text then "Outbreak"
  else if hasSubStr "policy" text || hasSubStr "regulation" text || hasSubStr "law" text
      || hasSubStr "bill" text || hasSubStr "fda" text || hasSubStr "usda" text then "Policy"
  else if hasSubStr "study" text || hasSubStr "research" text || hasSubStr "findings" text
      || hasSubStr "report" text then "Research"
  else if hasSubStr "alert" text || hasSubStr "warning" text || hasSubStr "advisory" text then "Alert"
  else "Research"

-- ─── stripHtml ───

/-- Drop characters up to and including the first closing angle bracket. -/
def dropThroughGt : List Char → Option (List Char)
  | [] => none
  | c :: cs => if c == '>' then some cs else dropThroughGt cs

theorem dropThroughGt_length :
    ∀ (l rest : List Char), dropThroughGt l = some rest → rest.length < l.length := by
  intro l
  induction l with
  | nil => intro rest h; simp [dropThroughGt] at h
  | cons c cs ih =>
    intro rest h
    simp only [dropThroughGt] at h
    by_cases hc : (c == '>') = true
    · simp [hc] at h; subst h; simp
    · simp [hc] at h
      exact Nat.lt_succ_of_lt (ih rest h)

/-- Global replacement of `/<[^>]*>/g` by the empty string: at an opening
bracket, if a closing bracket follows then the whole span is removed and the
scan continues after it; with no closing bracket in the remainder the regex can
no longer match and the rest of the text is kept as-is. -/
def removeTags : List Char → List Char
  | [] => []
  | c :: cs =>
    if c == '<' then
      match h : dropThroughGt cs with
      | some rest => removeTags rest
      | none => c :: cs
    else c :: removeTags cs
termination_by l => l.length
decreasing_by
  · exact Nat.lt_succ_of_lt (dropThroughGt_length cs rest h)
  · simp

/-- Non-overlapping global replacement of a nonempty literal pattern
`p :: ps` by `rep`; the scan resumes after each replaced occurrence, and the
replacement text is not rescanned (JavaScript `replace(/pat/g, rep)`). -/
def replaceAllGo (p : Char) (ps rep : List Char) : List Char → List Char
  | [] => []
  | c :: cs =>
    if hasPrefixL (p :: ps) (c :: cs) then rep ++ replaceAllGo p ps rep (cs.drop ps.length)
    else c :: replaceAllGo p ps rep cs
termination_by l => l.length
decreasing_by
  · simp only [List.length_drop, List.length_cons]
    omega
  · simp

/-- Global literal replacement; an empty pattern (never used here) is a no-op. -/
def replaceAllL (pat rep : List Char) (l : List Char) : List Char :=
  match pat with
  | [] => l
  | p :: ps => replaceAllGo p ps rep l

/-- The HTML entity substitutions of `stripHtml`, in source order (so a freshly
produced "&lt;" from "&amp;lt;" is not rewritten again). -/
def ENTITY_SUBS : List (String × String) :=
  [("&amp;", "&"), ("&lt;", "<"), ("&gt;", ">"), ("&quot;", "\""),
   ("&#039;", "\x27"), ("&#xA0;", " "), ("&nbsp;", " ")]

/-- `stripHtml`, identical in the fsn, fsm and cdc adapters: falsy input gives
the empty string; otherwise remove tags, decode the fixed entity list, collapse
whitespace runs to single spaces and trim (the last two modelled together by
splitting into whitespace-free runs and rejoining with single spaces). -/
def stripHtml (html : String) : String :=
  if html == "" then ""
  else
    let step1 := removeTags html.data
    let step2 := ENTITY_SUBS.foldl
      (fun acc (pr : String × String) => replaceAllL pr.1.data pr.2.data acc) step1
    String.intercalate " " ((splitWsL step2).map String.mk)

-- ─── Dates ───

/-- `formatDate`, identical in the fda and fsis adapters: openFDA YYYYMMDD to
YYYY-MM-DD, null when the input is falsy or not 8 characters long. -/
def formatDate (dateStr : Option String) : Option String :=
  if !jsTruthyStr dateStr || (dateStr.getD "").length != 8 then none
  else
    let l := (dateStr.getD "").data
    some (String.mk (l.take 4) ++ "-" ++ String.mk ((l.drop 4).take 2) ++ "-"
      ++ String.mk (l.drop 6))

/-- Left-pad to two digits. -/
def pad2 (n : Nat) : String :=
  if n < 10 then "0" ++ toString n else toString n

/-- Left-pad to four digits. -/
def pad4 (n : Nat) : String :=
  if n < 10 then "000" ++ toString n
  else if n < 100 then "00" ++ toString n
  else if n < 1000 then "0" ++ toString n
  else toString n

/-- Proleptic Gregorian civil date from a count of days since 1970-01-01
(the standard era-based algorithm used by date libraries). -/
def civilFromDays (z0 : Int) : Int × Int × Int :=
  let z := z0 + 719468
  let era := Int.fdiv z 146097
  let doe := z - era * 146097
  let yoe := Int.fdiv (doe - Int.fdiv doe 1460 + Int.fdiv doe 36524 - Int.fdiv doe 146096) 365
  let y0 := yoe + era * 400
  let doy := doe - (365 * yoe + Int.fdiv yoe 4 - Int.fdiv yoe 100)
  let mp := Int.fdiv (5 * doy + 2) 153
  let d := doy - Int.fdiv (153 * mp + 2) 5 + 1
  let m := mp + (if mp < 10 then 3 else -9)
  (y0 + (if m ≤ 2 then 1 else 0), m, d)

/-- `new Date(ms).toISOString().split('T')[0]` for CE years up to 9999 (the only
range the pipeline meets): the UTC calendar date of an epoch-millisecond stamp. -/
def isoDateOfEpochMs (ms : Int) : String :=
  let ymd := civilFromDays (Int.fdiv ms 86400000)
  pad4 ymd.1.toNat ++ "-" ++ pad2 ymd.2.1.toNat ++ "-" ++ pad2 ymd.2.2.toNat

-- ─── The MediaItem record ───

/-- The normalized media item produced by the adapters.  `Option` fields model
JavaScript fields that may be null, undefined or absent; per-field defaults
model absence (the adapters that do not set a field leave it undefined). -/
structure MediaItem where
  source_type : Option String := none
  sources : List String := []
  source_urls : List (Option String) := []
  title : String := ""
  summary : String := ""
  date : Option String := none
  date_estimated : Bool := false
  category : String := ""
  severity : String := ""
  pathogen : Option String := none
  product : Option String := none
  states : Option (List String) := none
  case_count : Option Int := none
  recall_number : Option String := none
  classification : Option String := none
  recalling_firm : Option String := none
  status : Option String := none
  tags : Option (List String) := none
  dedup_key : Option String := none
  deriving DecidableEq

-- ─── Similarity & dedup engine (fetch_media_sources.js) ───

/-- `areDuplicates(a, b)`: the six-way disjunction of the source, in order —
equal truthy recall numbers; a shared source URL; equal truthy dedup keys; equal
truthy pathogens with product similarity above 0.5; title similarity above 0.6;
equal recalling firms up to case. -/
def areDuplicates (a b : MediaItem) : Bool :=
  (jsTruthyStr a.recall_number && jsTruthyStr b.recall_number
    && a.recall_number == b.recall_number)
  || b.source_urls.any (fun u => a.source_urls.contains u)
  || (jsTruthyStr a.dedup_key && jsTruthyStr b.dedup_key && a.dedup_key == b.dedup_key)
  || (jsTruthyStr a.pathogen && jsTruthyStr b.pathogen && a.pathogen == b.pathogen
      && jsTruthyStr a.product && jsTruthyStr b.product
      && textSimilarityGt (a.product.getD "") (b.product.getD "") 1 2)
  || textSimilarityGt a.title b.title 3 5
  || (jsTruthyStr a.recalling_firm && jsTruthyStr b.recalling_firm
      && strLower (a.recalling_firm.getD "") == strLower (b.recalling_firm.getD ""))

/-- `if (!merged.f && secondary.f) merged.f = secondary.f` for string fields:
secondary fills in only when primary is falsy and secondary truthy. -/
def fillStr (p s : Option String) : Option String :=
  if !jsTruthyStr p && jsTruthyStr s then s else p

/-- The same fill for the integer `case_count` field (0 is falsy). -/
def fillInt (p s : Option Int) : Option Int :=
  if !jsTruthyInt p && jsTruthyInt s then s else p

/-- The same fill for the `states` array field: any array (even empty) is
truthy, so only null/undefined is replaced. -/
def fillArr (p s : Option (List String)) : Option (List String) :=
  if p.isNone && s.isSome then s else p

/-- The merge-side severity ranking `{high: 3, medium: 2, low: 1}` with `|| 0`
for unknown labels. -/
def severityRankMerge (s : String) : Nat :=
  if s == "high" then 3 else if s == "medium" then 2 else if s == "low" then 1 else 0

/-- `mergeItems(primary, secondary)`: spread of primary, source and URL sets
unioned, falsy-guarded fills for the single-valued fields, longer summary,
higher-ranked severity, tag-set union when secondary has tags. -/
def mergeItems (primary secondary : MediaItem) : MediaItem :=
  { primary with
    sources := dedupKeep (primary.sources ++ secondary.sources)
    source_urls := dedupKeep (primary.source_urls ++ secondary.source_urls)
    pathogen := fillStr primary.pathogen secondary.pathogen
    product := fillStr primary.product secondary.product
    states := fillArr primary.states secondary.states
    recall_number := fillStr primary.recall_number secondary.recall_number
    classification := fillStr primary.classification secondary.classification
    case_count := fillInt primary.case_count secondary.case_count
    recalling_firm := fillStr primary.recalling_firm secondary.recalling_firm
    summary := if secondary.summary != ""
        && secondary.summary.length > primary.summary.length
      then secondary.summary else primary.summary
    severity := if severityRankMerge secondary.severity > severityRankMerge primary.severity
      then secondary.severity else primary.severity
    tags := match secondary.tags with
      | none => primary.tags
      | some t => some (dedupKeep (primary.tags.getD [] ++ t)) }

/-- One step of the greedy clustering: merge the item into the first cluster it
duplicates, else append it as a new cluster. -/
def mergeIntoClusters (clusters : List MediaItem) (item : MediaItem) : List MediaItem :=
  match clusters with
  | [] => [item]
  | c :: cs =>
    if areDuplicates c item then mergeItems c item :: cs
    else c :: mergeIntoClusters cs item

/-- `deduplicateAndMerge(items)`: single-pass greedy clustering over the input
order, first matching cluster wins. -/
def deduplicateAndMerge (items : List MediaItem) : List MediaItem :=
  items.foldl mergeIntoClusters []

-- ─── Aggregator (fetchAllMediaSources) ───

/-- The sort-side severity ranking: the source builds `{high: 0, medium: 1,
low: 2}` and reads it as `severityOrder[sev] || 2`, so the 0 assigned to high is
falsy and high effectively ranks 2, like low and like unknown labels. -/
def severityRankSort (s : String) : Nat :=
  let v : Option Nat :=
    if s == "high" then some 0 else if s == "medium" then some 1
    else if s == "low" then some 2 else none
  match v with
  | some n => if n == 0 then 2 else n
  | none => 2

/-- `localeCompare` on the ASCII date strings of the pipeline: ordinary
lexicographic comparison reported as a sign. -/
def strCmpInt (a b : String) : Int :=
  match compare a b with
  | Ordering.lt => -1
  | Ordering.eq => 0
  | Ordering.gt => 1

/-- The aggregator's sort comparator: date descending, ties by the (broken, see
`severityRankSort`) severity rank ascending. -/
def mediaCompare (a b : MediaItem) : Int :=
  let dateComp := strCmpInt (b.date.getD "") (a.date.getD "")
  if dateComp != 0 then dateComp
  else (severityRankSort a.severity : Int) - (severityRankSort b.severity : Int)

/-- Strict precedence under the comparator. -/
def sortLt (a b : MediaItem) : Bool :=
  mediaCompare a b < 0

/-- Insert into a sorted list (strictly before the first larger element). -/
def insertBy (lt : α → α → Bool) (x : α) : List α → List α
  | [] => [x]
  | y :: ys => if lt x y then x :: y :: ys else y :: insertBy lt x ys

/-- Comparison sort modelling `Array.prototype.sort` with the comparator above;
the proofs below use only that it permutes its input. -/
def sortByLt (lt : α → α → Bool) : List α → List α
  | [] => []
  | x :: xs => insertBy lt x (sortByLt lt xs)

/-- The output clean-up: strip the internal dedup key and stamp the source type. -/
def cleanItem (i : MediaItem) : MediaItem :=
  { i with dedup_key := none, source_type := some "media" }

/-- The fixed key order in which the aggregator tests `enabledSources`. -/
def SOURCE_KEYS : List String := ["fsn", "fsm", "fda", "fsis", "cdc"]

/-- `fetchAllMediaSources(options)` after all adapter promises settle:
`adapterResult` gives each enabled adapter promise's outcome (Promise.allSettled
of the source); a rejected adapter contributes an empty list, the rest are
flattened, deduplicated, sorted and cleaned.  The source function itself always
resolves — every await is over `allSettled` and the remainder is synchronous —
which this model reflects by being a total function into a plain list. -/
def fetchAllMediaSources (enabledSources : List String)
    (adapterResult : String → Except String (List MediaItem)) : List MediaItem :=
  let keys := SOURCE_KEYS.filter (fun k => enabledSources.contains k)
  let results := keys.map (fun k =>
    match adapterResult k with
    | Except.ok v => v
    | Except.error _ => [])
  let allItems := results.flatten
  let merged := deduplicateAndMerge allItems
  let sorted := sortByLt sortLt merged
  sorted.map cleanItem

-- ─── Shared adapter helpers ───

/-- The internal dedup key: lowercase, strip non-alphanumerics, first 60 chars
(`s.toLowerCase().replace(/[^a-z0-9]/g, '').substring(0, 60)`). -/
def dedupKeyOf (s : String) : String :=
  String.mk (((strLower s).data.filter isLowerAlnum).take 60)

/-- Template-literal interpolation of a nullable string: JavaScript renders
`undefined` as the text "undefined". -/
def jsInterp : Option String → String
  | none => "undefined"
  | some s => s

/-- Characters up to (excluding) the first occurrence of `c`: the head of
`split(c)`. -/
def takeUntilChar (c : Char) (l : List Char) : List Char :=
  l.takeWhile (fun d => d != c)

/-- JavaScript `trim` on a character list. -/
def trimWs (l : List Char) : List Char :=
  ((l.dropWhile isWsChar).reverse.dropWhile isWsChar).reverse

/-- A raw RSS item after XML parsing: text fields as delivered, `pubDate` as the
epoch-millisecond value of `new Date(item.pubDate)` when that is a valid date
(`none` models a missing or unparsable date, for which `isNaN(getTime())`
holds).  `categories` is `item.category` already normalized to a list, as the
source does before use. -/
structure RSSRaw where
  title : Option String := none
  description : Option String := none
  categories : List String := []
  link : Option String := none
  guid : Option String := none
  pubDate : Option Int := none

-- ─── News adapter (fetch_food_safety_news.js) ───

/-- The per-item mapping of the news adapter: drop items with invalid or
too-old publication dates, otherwise build the normalized item. -/
def buildFSN (cutoff : Int) (item : RSSRaw) : Option MediaItem :=
  match item.pubDate with
  | none => none
  | some t =>
    if t < cutoff then none
    else
      let title := stripHtml (item.title.getD "")
      let description := stripHtml (item.description.getD "")
      some { source_type := some "media"
             sources := ["Food Safety News"]
             source_urls := [item.link]
             title := title
             summary := description
             date := some (isoDateOfEpochMs t)
             category := categorizeArticle title description item.categories
             severity := determineSeverity_fsn title description
             pathogen := extractPathogen (title ++ " " ++ description)
             product := none
             states := none
             tags := some item.categories
             dedup_key := some (dedupKeyOf title) }

/-- The pure core of `fetchFoodSafetyNews` once the feed XML is parsed:
`.map(...).filter(Boolean)` over the feed items. -/
def fetchFSN_pure (cutoff : Int) (items : List RSSRaw) : List MediaItem :=
  items.filterMap (buildFSN cutoff)

-- ─── Magazine adapter (fetch_food_safety_magazine.js) ───

/-- `DEFAULT_TOPICS`: topic id (an object key, hence a string) to default
category. -/
def DEFAULT_TOPICS : String → Option String
  | "305" => some "Recall"
  | "306" => some "Research"
  | "309" => some "Alert"
  | "311" => some "Alert"
  | "312" => some "Research"
  | "313" => some "Alert"
  | _ => none

/-- `TOPIC_NAMES`: topic id to display name. -/
def TOPIC_NAMES : String → Option String
  | "305" => some "Recall/Crisis"
  | "306" => some "Risk Assessment"
  | "309" => some "Chemical"
  | "311" => some "Allergen"
  | "312" => some "Microbiological"
  | "313" => some "Physical"
  | _ => none

/-- The loop body of one magazine topic feed, threading the `seenUrls` set:
items with invalid/old dates or falsy/seen links are skipped; the rest are
normalized under the topic's default category and display name. -/
def fsmProcessItems (cutoff : Int) (categoryDefault topicName : String) :
    List RSSRaw → List String → List MediaItem × List String
  | [], seen => ([], seen)
  | item :: rest, seen =>
    match item.pubDate with
    | none => fsmProcessItems cutoff categoryDefault topicName rest seen
    | some t =>
      if t < cutoff then fsmProcessItems cutoff categoryDefault topicName rest seen
      else
        let link := jsOrStr item.link item.guid
        if !jsTruthyStr link || (link.getD "") ∈ seen then
          fsmProcessItems cutoff categoryDefault topicName rest seen
        else
          let title := stripHtml (item.title.getD "")
          let description := stripHtml (item.description.getD "")
          let built : MediaItem :=
            { source_type := some "media"
              sources := ["Food Safety Magazine"]
              source_urls := [some (link.getD "")]
              title := title
              summary := description
              date := some (isoDateOfEpochMs t)
              category := categoryDefault
              severity := determineSeverity_fsm title description
              pathogen := extractPathogen (title ++ " " ++ description)
              product := none
              states := none
              tags := some [topicName]
              dedup_key := some (dedupKeyOf title) }
          let pr := fsmProcessItems cutoff categoryDefault topicName rest
            (link.getD "" :: seen)
          (built :: pr.1, pr.2)

/-- All topic feeds in the magazine adapter: per-feed failures are isolated
(a failed feed contributes nothing), the URL-seen set is threaded through.  The
source launches the feeds concurrently but pushes into one shared list; the
model fixes the topic order, which the per-item claims do not depend on. -/
def fsmProcessFeeds (cutoff : Int) :
    List (String × Except String (List RSSRaw)) → List String → List MediaItem
  | [], _ => []
  | (topicId, feed) :: rest, seen =>
    match feed with
    | Except.error _ => fsmProcessFeeds cutoff rest seen
    | Except.ok items =>
      let categoryDefault := match DEFAULT_TOPICS topicId with
        | some c => c
        | none => "Research"
      let topicName := match TOPIC_NAMES topicId with
        | some n => n
        | none => "Topic " ++ topicId
      let pr := fsmProcessItems cutoff categoryDefault topicName items seen
      pr.1 ++ fsmProcessFeeds cutoff rest pr.2

/-- Date-descending comparator of the magazine adapter
(`(a, b) => b.date.localeCompare(a.date)`). -/
def fsmSortLt (a b : MediaItem) : Bool :=
  strCmpInt (b.date.getD "") (a.date.getD "") < 0

/-- The pure core of `fetchFoodSafetyMagazine`: process all topic feeds, then
sort by date descending. -/
def fetchFSM_pure (cutoff : Int)
    (feeds : List (String × Except String (List RSSRaw))) : List MediaItem :=
  sortByLt fsmSortLt (fsmProcessFeeds cutoff feeds [])

-- ─── FDA recall adapter (fetch_fda_recalls.js) ───

/-- A raw openFDA enforcement record (the fields the adapter reads). -/
structure FDARaw where
  report_date : Option String := none
  recall_initiation_date : Option String := none
  reason_for_recall : Option String := none
  product_description : Option String := none
  distribution_pattern : Option String := none
  product_quantity : Option String := none
  classification : Option String := none
  recalling_firm : Option String := none
  recall_number : Option String := none
  status : Option String := none

/-- `extractProduct`: null on falsy input; otherwise text before the first
semicolon and comma, trimmed, truncated to 100 characters with an ellipsis. -/
def extractProduct (description : Option String) : Option String :=
  if !jsTruthyStr description then none
  else
    let cleaned := String.mk (trimWs (takeUntilChar ','
      (takeUntilChar ';' (description.getD "").data)))
    some (if cleaned.length > 100 then String.mk (cleaned.data.take 100) ++ "..."
      else cleaned)

/-- The per-record mapping of the FDA adapter; `today` is the fetch-time
`new Date().toISOString().split('T')[0]`. -/
def buildFDA (today : String) (r : FDARaw) : MediaItem :=
  let reportDate := formatDate r.report_date
  let recallDate := formatDate r.recall_initiation_date
  let reason := r.reason_for_recall.getD ""
  let product := extractProduct r.product_description
  let firm := if jsTruthyStr r.recalling_firm then r.recalling_firm.getD ""
    else "Unknown Firm"
  let classLabel := if jsTruthyStr r.classification then r.classification.getD ""
    else ""
  let title := firm ++ " Recalls "
    ++ (if jsTruthyStr product then product.getD "" else "Product")
    ++ " (" ++ classLabel ++ ")"
  let summaryParts := [reason]
    ++ (if jsTruthyStr r.distribution_pattern then
          ["Distribution: " ++ r.distribution_pattern.getD ""] else [])
    ++ (if jsTruthyStr r.product_quantity then
          ["Quantity: " ++ r.product_quantity.getD ""] else [])
  { source_type := some "media"
    sources := ["FDA"]
    source_urls := [some ("https://api.fda.gov/food/enforcement.json?search=recall_number:\""
      ++ jsInterp r.recall_number ++ "\"")]
    title := title
    summary := String.intercalate " | " summaryParts
    date := jsOrStr reportDate (jsOrStr recallDate (some today))
    category := "Recall"
    severity := classificationToSeverity r.classification
    pathogen := extractPathogen reason
    product := product
    states := extractStates r.distribution_pattern
    recall_number := r.recall_number
    classification := r.classification
    recalling_firm := some firm
    status := r.status
    dedup_key := some (dedupKeyOf
      (if jsTruthyStr r.recall_number then r.recall_number.getD "" else title)) }

/-- The pure core of `fetchFDARecalls` around the HTTP fetch: any rejection of
`fetchJSON` (HTTP error — including the 404 no-results case — timeout, JSON
parse error) is caught and yields the empty list; a response maps its
`results || []` through the record builder. -/
def fetchFDARecalls_pure (today : String)
    (response : Except String (Option (List FDARaw))) : List MediaItem :=
  match response with
  | Except.error _ => []
  | Except.ok results => (results.getD []).map (buildFDA today)

-- ─── FSIS recall adapter (fetch_fsis_recalls.js) ───

/-- The FSIS product vocabulary used by the openFDA fallback filter. -/
def FSIS_PRODUCTS : List String :=
  ["meat", "beef", "pork", "chicken", "turkey", "poultry", "egg",
   "sausage", "bacon", "ham", "deli", "hot dog", "ground beef",
   "ground turkey", "ground chicken", "jerky", "lamb", "veal",
   "duck", "goose", "bison", "venison", "rabbit"]

/-- `isFSISProduct`: falsy text is not a product match; otherwise any
vocabulary term occurring (case-insensitively) in the text. -/
def isFSISProduct (text : Option String) : Bool :=
  if !jsTruthyStr text then false
  else FSIS_PRODUCTS.any (fun p => hasSubStr p (strLower (text.getD "")))

/-- A scraped FSIS table row on which both the link and the date regex matched:
`url` is the captured href, `inner` the captured anchor body, `dateMs` the
epoch value of `new Date(match)` (`none` for an invalid date, which fails the
cutoff comparison). -/
structure FSISRow where
  url : String := ""
  inner : String := ""
  dateMs : Option Int := none

/-- The per-row mapping of the FSIS scrape strategy. -/
def buildFSISScrape (cutoff : Int) (row : FSISRow) : Option MediaItem :=
  match row.dateMs with
  | none => none
  | some t =>
    if t ≥ cutoff then
      let title := String.mk (trimWs (removeTags row.inner.data))
      let url := if hasPrefixL "http".data row.url.data then row.url
        else "https://www.fsis.usda.gov" ++ row.url
      some { source_type := some "media"
             sources := ["USDA FSIS"]
             source_urls := [some url]
             title := title
             summary := title
             date := some (isoDateOfEpochMs t)
             category := "Recall"
             severity := "medium"
             pathogen := fsis_extractPathogen title
             product := none
             states := none
             dedup_key := some (dedupKeyOf title) }
    else none

/-- `tryScrapeFSIS` once the page fetch settles: a fetch failure or an empty
row yield returns null (try the fallback); a nonempty yield is returned.  The
embedded-drupalSettings branch of the source calls `parseEmbeddedRecalls`,
which is defined nowhere in the repository — reaching it throws a
ReferenceError that the surrounding try swallows into the same null — so no
items can come from it. -/
def tryScrapeFSIS_pure (cutoff : Int)
    (fetchRes : Except String (List FSISRow)) : Option (List MediaItem) :=
  match fetchRes with
  | Except.error _ => none
  | Except.ok rows =>
    let recalls := rows.filterMap (buildFSISScrape cutoff)
    if recalls.length > 0 then some recalls else none

/-- The per-record mapping of the FSIS openFDA fallback strategy. -/
def buildFSISFallback (today : String) (r : FDARaw) : MediaItem :=
  let reportDate := formatDate r.report_date
  let productRaw : Option String := r.product_description.map
    (fun d => String.mk (trimWs (takeUntilChar ',' (takeUntilChar ';' d.data))))
  let product := if jsTruthyStr productRaw then productRaw.getD "" else "Unknown Product"
  let reason := r.reason_for_recall.getD ""
  let firm := if jsTruthyStr r.recalling_firm then r.recalling_firm.getD ""
    else "Unknown Firm"
  { source_type := some "media"
    sources := ["USDA FSIS", "FDA"]
    source_urls := [some "https://www.fsis.usda.gov/recalls-alerts",
      some ("https://api.fda.gov/food/enforcement.json?search=recall_number:\""
        ++ jsInterp r.recall_number ++ "\"")]
    title := firm ++ " Recalls " ++ String.mk (product.data.take 80) ++ " ("
      ++ (if jsTruthyStr r.classification then r.classification.getD ""
          else "Unclassified") ++ ")"
    summary := reason ++ " | Distribution: "
      ++ (if jsTruthyStr r.distribution_pattern then r.distribution_pattern.getD ""
          else "Unknown")
    date := jsOrStr reportDate (some today)
    category := "Recall"
    severity := classificationToSeverity r.classification
    pathogen := fsis_extractPathogen reason
    product := some (String.mk (product.data.take 100))
    states := extractStates r.distribution_pattern
    recall_number := r.recall_number
    classification := r.classification
    recalling_firm := some firm
    dedup_key := some (dedupKeyOf
      (if jsTruthyStr r.recall_number then r.recall_number.getD "" else "")) }

/-- `tryOpenFDAFallback` once the fetch settles: failures (including 404) give
the empty list; otherwise records are filtered to FSIS-regulated products and
mapped. -/
def tryOpenFDAFallback_pure (today : String)
    (fdaFetch : Except String (Option (List FDARaw))) : List MediaItem :=
  match fdaFetch with
  | Except.error _ => []
  | Except.ok results =>
    ((results.getD []).filter (fun r =>
      isFSISProduct r.product_description || isFSISProduct r.reason_for_recall)).map
      (buildFSISFallback today)

/-- The pure core of `fetchFSISRecalls`: the scrape result when it is non-null
(hence nonempty), else the openFDA fallback. -/
def fetchFSISRecalls_pure (cutoff : Int) (today : String)
    (scrapeFetch : Except String (List FSISRow))
    (fdaFetch : Except String (Option (List FDARaw))) : List MediaItem :=
  match tryScrapeFSIS_pure cutoff scrapeFetch with
  | some recalls => recalls
  | none => tryOpenFDAFallback_pure today fdaFetch

-- ─── CDC outbreak adapter (fetch_cdc_outbreaks.js) ───

/-- A raw CDC media-API result item. `datePublished`/`dateModified` hold the
epoch value when the corresponding field is a truthy, parsable date string;
`none` models a missing field. -/
structure CDCMediaRaw where
  id : Int := 0
  datePublished : Option Int := none
  dateModified : Option Int := none
  name : Option String := none
  description : Option String := none
  sourceUrl : Option String := none
  targetUrl : Option String := none

/-- The relevance regex of the media-API strategy,
`/outbreak|recall|foodborne|food.?safety|investigation|illness|contamina/i`:
`food.?safety` is "food", at most one arbitrary character, then "safety". -/
def cdcMediaRelevant (text : String) : Bool :=
  let l := (strLower text).data
  hasSubL "outbreak".data l || hasSubL "recall".data l || hasSubL "foodborne".data l
  || anySuffixP (fun s => hasPrefixL "food".data s
      && (hasPrefixL "safety".data (s.drop 4) || hasPrefixL "safety".data (s.drop 5))) l
  || hasSubL "investigation".data l || hasSubL "illness".data l
  || hasSubL "contamina".data l

/-- `modDate || pubDate`: the modified date when its field is present, else the
published date (Date objects are always truthy). -/
def bestCDCDate (item : CDCMediaRaw) : Option Int :=
  match item.dateModified with
  | some t => some t
  | none => item.datePublished

/-- The per-result mapping of the media-API strategy (after the seen-id check):
items without a date, before the cutoff, or irrelevant are skipped. -/
def buildCDCMedia (cutoff : Int) (item : CDCMediaRaw) : Option MediaItem :=
  match bestCDCDate item with
  | none => none
  | some t =>
    if t < cutoff then none
    else
      let title := stripHtml (item.name.getD "")
      let description := stripHtml (item.description.getD "")
      let text := title ++ " " ++ description
      if !cdcMediaRelevant text then none
      else
        some { source_type := some "media"
               sources := ["CDC"]
               source_urls := [jsOrStr item.sourceUrl
                 (jsOrStr item.targetUrl (some "https://www.cdc.gov/"))]
               title := title
               summary := description
               date := some (isoDateOfEpochMs t)
               category := "Outbreak"
               severity := determineSeverity_cdc text
               pathogen := extractPathogen text
               product := none
               states := extractStates (some text)
               case_count := extractCaseCount text
               dedup_key := some (dedupKeyOf title) }

/-- One media-API query's contribution, threading the seen-id set. -/
def cdcMediaLoop (cutoff : Int) :
    List CDCMediaRaw → List Int → List MediaItem × List Int
  | [], seen => ([], seen)
  | item :: rest, seen =>
    if item.id ∈ seen then cdcMediaLoop cutoff rest seen
    else
      let pr := cdcMediaLoop cutoff rest (item.id :: seen)
      match buildCDCMedia cutoff item with
      | none => pr
      | some built => (built :: pr.1, pr.2)

/-- `tryCDCMediaAPI`: the three queries in sequence, failures isolated, ids
deduplicated across queries. -/
def tryCDCMediaAPI_pure (cutoff : Int) :
    List (Except String (List CDCMediaRaw)) → List Int → List MediaItem
  | [], _ => []
  | Except.error _ :: rest, seen => tryCDCMediaAPI_pure cutoff rest seen
  | Except.ok items :: rest, seen =>
    let pr := cdcMediaLoop cutoff items seen
    pr.1 ++ tryCDCMediaAPI_pure cutoff rest pr.2

/-- An anchor match on a CDC listing page: captured href and raw inner HTML. -/
structure CDCAnchorRaw where
  href : String := ""
  inner : String := ""

/-- The anchor relevance regex of the listing-page strategy,
`/outbreak|investigation|salmonella|listeria|e\.\s*coli/i`. -/
def cdcPageRelevant (text : String) : Bool :=
  let l := (strLower text).data
  hasSubL "outbreak".data l || hasSubL "investigation".data l
  || hasSubL "salmonella".data l || hasSubL "listeria".data l
  || anySuffixP (fun s => hasPrefixL "e.".data s
      && hasPrefixL "coli".data ((s.drop 2).dropWhile isWsChar)) l

/-- The per-anchor mapping of the listing-page strategy: outbreak-like anchor
text longer than 15 characters becomes an undated item
(`date: null`, `date_estimated: true`). -/
def buildCDCPage (anchor : CDCAnchorRaw) : Option MediaItem :=
  let text := stripHtml anchor.inner
  if cdcPageRelevant text && text.length > 15 then
    let fullUrl := if hasPrefixL "http".data anchor.href.data then anchor.href
      else "https://www.cdc.gov" ++ anchor.href
    some { source_type := some "media"
           sources := ["CDC"]
           source_urls := [some fullUrl]
           title := text
           summary := text
           date := none
           date_estimated := true
           category := "Outbreak"
           severity := determineSeverity_cdc text
           pathogen := extractPathogen text
           product := none
           states := extractStates (some text)
           dedup_key := some (dedupKeyOf text) }
  else none

/-- All items of one listing page. -/
def cdcPageItems (anchors : List CDCAnchorRaw) : List MediaItem :=
  anchors.filterMap buildCDCPage

/-- `tryCDCOutbreakPages`: the candidate pages in order, returning the first
page whose scan yields anything; failures and empty scans fall through. -/
def tryCDCOutbreakPages_pure :
    List (Except String (List CDCAnchorRaw)) → List MediaItem
  | [] => []
  | Except.error _ :: rest => tryCDCOutbreakPages_pure rest
  | Except.ok anchors :: rest =>
    let outbreaks := cdcPageItems anchors
    if outbreaks.length > 0 then outbreaks else tryCDCOutbreakPages_pure rest

/-- The relevance regex of the RSS strategy,
`/outbreak|recall|foodborne|food.?safety|investigation|illness/i`. -/
def cdcRssRelevant (text : String) : Bool :=
  let l := (strLower text).data
  hasSubL "outbreak".data l || hasSubL "recall".data l || hasSubL "foodborne".data l
  || anySuffixP (fun s => hasPrefixL "food".data s
      && (hasPrefixL "safety".data (s.drop 4) || hasPrefixL "safety".data (s.drop 5))) l
  || hasSubL "investigation".data l || hasSubL "illness".data l

/-- The per-item mapping of the CDC RSS strategy. -/
def buildCDCRss (cutoff : Int) (item : RSSRaw) : Option MediaItem :=
  match item.pubDate with
  | none => none
  | some t =>
    if t < cutoff then none
    else
      let title := stripHtml (item.title.getD "")
      let description := stripHtml (item.description.getD "")
      let text := title ++ " " ++ description
      if !cdcRssRelevant text then none
      else
        some { source_type := some "media"
               sources := ["CDC"]
               source_urls := [item.link]
               title := title
               summary := description
               date := some (isoDateOfEpochMs t)
               category := "Outbreak"
               severity := determineSeverity_cdc text
               pathogen := extractPathogen text
               product := none
               states := extractStates (some text)
               dedup_key := some (dedupKeyOf title) }

/-- `tryCDCRSS`: feeds tried in order; a fetch failure falls through to the
next feed, the first fetched feed is parsed and returned (a parse failure is
modelled as a fetched feed with no items, matching the `resolve([])`). -/
def tryCDCRSS_pure (cutoff : Int) :
    List (Except String (List RSSRaw)) → List MediaItem
  | [] => []
  | Except.error _ :: rest => tryCDCRSS_pure cutoff rest
  | Except.ok items :: _ => items.filterMap (buildCDCRss cutoff)

/-- The key-seen dedup of the CDC adapter (`seen.has(item._dedup_key)`). -/
def cdcDedupByKey (seen : List (Option String)) : List MediaItem → List MediaItem
  | [] => []
  | i :: rest =>
    if i.dedup_key ∈ seen then cdcDedupByKey seen rest
    else i :: cdcDedupByKey (i.dedup_key :: seen) rest

/-- The combination step of `fetchCDCOutbreaks`: under a short window (`days`
at most 1 and no truthy `since`) the listing-page items are filtered to those
with a truthy date; then the three strategy results are concatenated and
deduplicated by key. -/
def fetchCDCOutbreaks_combine (since : Option String) (days : Int)
    (mediaItems pageItems rssItems : List MediaItem) : List MediaItem :=
  let filteredPageItems :=
    if !jsTruthyStr since && days ≤ 1 then pageItems.filter (fun i => jsTruthyStr i.date)
    else pageItems
  cdcDedupByKey [] (mediaItems ++ filteredPageItems ++ rssItems)

/-- The pure core of `fetchCDCOutbreaks`: the three strategies over their
settled fetches, combined. -/
def fetchCDCOutbreaks_pure (since : Option String) (days : Int) (cutoff : Int)
    (queries : List (Except String (List CDCMediaRaw)))
    (pages : List (Except String (List CDCAnchorRaw)))
    (feeds : List (Except String (List RSSRaw))) : List MediaItem :=
  fetchCDCOutbreaks_combine since days
    (tryCDCMediaAPI_pure cutoff queries [])
    (tryCDCOutbreakPages_pure pages)
    (tryCDCRSS_pure cutoff feeds)

-- ─── Statement-side definitions ───

/-- The per-item invariant of the spec's testable properties: a closed category,
a closed severity, and non-empty source and source-URL lists. -/
def itemInvariant (i : MediaItem) : Prop :=
  (i.category = "Recall" ∨ i.category = "Outbreak" ∨ i.category = "Alert"
    ∨ i.category = "Policy" ∨ i.category = "Research")
  ∧ (i.severity = "high" ∨ i.severity = "medium" ∨ i.severity = "low")
  ∧ i.sources ≠ [] ∧ i.source_urls ≠ []

/-- The spec's fixed pathogen vocabulary, in its 15 display forms. -/
def SPEC_VOCAB : List String :=
  ["Salmonella", "E. coli", "Listeria", "Campylobacter", "Norovirus",
   "Clostridium", "Botulism", "Vibrio", "Staphylococcus", "Shigella",
   "Hepatitis A", "Cyclospora", "Cronobacter", "Bacillus cereus", "Yersinia"]

/-- The FDA recall item of the spec's end-to-end scenario. -/
def fdaScenarioItem : MediaItem :=
  { sources := ["FDA"]
    source_urls := [some "https://api.example/recall/123"]
    title := "Acme Foods Recalls Ground Beef (Class I)"
    severity := "high"
    pathogen := none
    date := some "2025-01-15" }

/-- The Food Safety News item of the spec's end-to-end scenario: same day,
different URL, pathogen supplied. -/
def newsScenarioItem : MediaItem :=
  { sources := ["Food Safety News"]
    source_urls := [some "https://example.com/acme-ecoli"]
    title := "Acme Foods recalls ground beef over E. coli"
    severity := "medium"
    pathogen := some "E. coli"
    date := some "2025-01-15" }

-- ─── Generic lemmas ───

theorem mem_dedupSeen [DecidableEq α] (a : α) :
    ∀ (l seen : List α), a ∈ dedupSeen seen l ↔ a ∈ l ∧ a ∉ seen := by
  intro l
  induction l with
  | nil => intro seen; simp [dedupSeen]
  | cons x xs ih =>
    intro seen
    by_cases hx : x ∈ seen
    · simp only [dedupSeen, if_pos hx, ih, List.mem_cons]
      constructor
      · rintro ⟨h1, h2⟩; exact ⟨Or.inr h1, h2⟩
      · rintro ⟨h1 | h1, h2⟩
        · subst h1; exact absurd hx h2
        · exact ⟨h1, h2⟩
    · simp only [dedupSeen, if_neg hx, List.mem_cons, ih]
      by_cases hax : a = x
      · subst hax; simp [hx]
      · simp [hax]

theorem mem_dedupKeep [DecidableEq α] (a : α) (l : List α) :
    a ∈ dedupKeep l ↔ a ∈ l := by
  simp [dedupKeep, mem_dedupSeen]

theorem mem_insertBy (lt : α → α → Bool) (x a : α) :
    ∀ l : List α, a ∈ insertBy lt x l ↔ a = x ∨ a ∈ l := by
  intro l
  induction l with
  | nil => simp [insertBy]
  | cons y ys ih =>
    by_cases h : lt x y = true
    · simp [insertBy, h, List.mem_cons]
    · simp only [insertBy, if_neg h, List.mem_cons, ih]
      tauto

theorem mem_sortByLt (lt : α → α → Bool) (a : α) :
    ∀ l : List α, a ∈ sortByLt lt l ↔ a ∈ l := by
  intro l
  induction l with
  | nil => simp [sortByLt]
  | cons x xs ih => simp [sortByLt, mem_insertBy, ih, List.mem_cons]

theorem mem_cdcDedupByKey (a : MediaItem) :
    ∀ (l : List MediaItem) (seen : List (Option String)),
      a ∈ cdcDedupByKey seen l → a ∈ l := by
  intro l
  induction l with
  | nil => intro seen h; simpa [cdcDedupByKey] using h
  | cons i rest ih =>
    intro seen h
    by_cases hk : i.dedup_key ∈ seen
    · simp only [cdcDedupByKey, if_pos hk] at h
      exact List.mem_cons_of_mem _ (ih _ h)
    · simp only [cdcDedupByKey, if_neg hk, List.mem_cons] at h
      rcases h with h | h
      · exact List.mem_cons.mpr (Or.inl h)
      · exact List.mem_cons_of_mem _ (ih _ h)

theorem jsTruthyStr_isSome {a : Option String} (h : jsTruthyStr a = true) :
    a.isSome = true := by
  cases a with
  | none => simp [jsTruthyStr] at h
  | some s => rfl

/-- `find?` over a split list whose left part is all-false finds the pivot. -/
theorem find?_append_pivot (pred : α → Bool) :
    ∀ (l₁ : List α) (p : α) (l₂ : List α),
      (∀ q ∈ l₁, pred q = false) → pred p = true →
      (l₁ ++ p :: l₂).find? pred = some p := by
  intro l₁
  induction l₁ with
  | nil =>
    intro p l₂ _ hp
    simp [List.find?_cons_of_pos, hp]
  | cons a as ih =>
    intro p l₂ h₁ hp
    have ha : pred a = false := h₁ a (List.mem_cons_self a as)
    rw [List.cons_append, List.find?_cons_of_neg _ (by simp [ha])]
    exact ih p l₂ (fun q hq => h₁ q (List.mem_cons_of_mem _ hq)) hp

theorem jsOrStr_isSome_right (a b : Option String) (hb : b.isSome = true) :
    (jsOrStr a b).isSome = true := by
  unfold jsOrStr
  by_cases h : jsTruthyStr a = true
  · simp [h, jsTruthyStr_isSome h]
  · simp [h, hb]

-- ─── Claim theorems ───

/-- C1: on the spec's end-to-end scenario — the FDA Class I recall item and the
same-day Food Safety News article with a different URL — `deduplicateAndMerge`
returns exactly one item, whose sources contain both "FDA" and
"Food Safety News", whose severity is "high" and whose pathogen is "E. coli"
(the two items cluster through the title-similarity rule, 5 shared words
against the smaller 6-word title set). -/
theorem deduplicateAndMerge_end_to_end_scenario :
    (deduplicateAndMerge [fdaScenarioItem, newsScenarioItem]).length = 1
    ∧ (deduplicateAndMerge [fdaScenarioItem, newsScenarioItem]).all
        (fun i => i.sources.contains "FDA" && i.sources.contains "Food Safety News"
          && i.severity == "high" && i.pathogen == some "E. coli") = true := by
  decide

/-- C2: with only the FDA source enabled and the FDA adapter's underlying HTTP
fetch rejecting, the aggregator yields the empty list and never fails: the
adapter itself catches the rejection into an empty list, and even a rejection
escaping to the aggregator is absorbed by the allSettled join.  The model
`fetchAllMediaSources` is a total function into a plain list, reflecting that
the source resolves unconditionally. -/
theorem fetchAllMediaSources_fda_rejection_empty (e today : String) :
    fetchFDARecalls_pure today (Except.error e) = []
    ∧ fetchAllMediaSources ["fda"]
        (fun _ => Except.ok (fetchFDARecalls_pure today (Except.error e))) = []
    ∧ fetchAllMediaSources ["fda"] (fun _ => Except.error e) = [] :=
  ⟨rfl, rfl, rfl⟩

/-- C4 counterexample: in "contains both Listeria and Salmonella traces" the
vocabulary pathogen Listeria occurs at index 14 and Salmonella only at index
27, yet `extractPathogen` returns "Salmonella" — the scan follows vocabulary
order, not text order, so the claim "first occurrence in the text wins" fails
at this input. -/
theorem extractPathogen_text_order_cex :
    extractPathogen "contains both Listeria and Salmonella traces" = some "Salmonella"
    ∧ firstIdxOfSub "listeria"
        (strLower "contains both Listeria and Salmonella traces") = some 14
    ∧ firstIdxOfSub "salmonella"
        (strLower "contains both Listeria and Salmonella traces") = some 27
    ∧ ("Salmonella" : String) ≠ "Listeria" := by
  decide

/-- C4 amended: `extractPathogen` returns the canonical form of the first
vocabulary entry (in the fixed PATHOGENS list order) that occurs in the
lowercased text — first match in vocabulary order wins, not first occurrence in
the text; on the spec's example text the result is still "Salmonella". -/
theorem extractPathogen_vocab_order_first :
    (∀ (text p : String) (l₁ l₂ : List String),
      PATHOGENS = l₁ ++ p :: l₂ → text ≠ "" →
      hasSubStr p (strLower text) = true →
      (∀ q ∈ l₁, hasSubStr q (strLower text) = false) →
      extractPathogen text = some (canonPathogen p))
    ∧ extractPathogen "contains both Salmonella and Listeria traces" = some "Salmonella" := by
  constructor
  · intro text p l₁ l₂ hv hne hp hq
    unfold extractPathogen extractPathogenCore
    rw [if_neg (by simpa using hne), hv, find?_append_pivot _ l₁ p l₂ hq hp]
    rfl
  · decide

theorem extractPathogen_vocab_order_first_witness :
    extractPathogen "has Yersinia" = some (canonPathogen "yersinia") :=
  extractPathogen_vocab_order_first.1 "has Yersinia" "yersinia"
    ["salmonella", "e. coli", "e.coli", "escherichia coli", "listeria",
     "campylobacter", "norovirus", "clostridium", "botulism", "vibrio",
     "staphylococcus", "shigella", "hepatitis a", "cyclospora", "cronobacter",
     "bacillus cereus"] []
    (by decide) (by decide) (by decide) (by decide)

/-- C5 counterexample: the FSIS adapter's pathogen vocabulary stops after
cronobacter, so its `extractPathogen` returns null on texts naming Yersinia or
Bacillus cereus — refuting the claim that every adapter covers the full
vocabulary and that the FSIS adapter returns "Yersinia" on such a text. -/
theorem fsis_pathogen_vocab_cex :
    fsis_extractPathogen "Yersinia" = none
    ∧ fsis_extractPathogen "Bacillus cereus" = none := by
  decide

/-- C5 amended: the shared `extractPathogen` of the news, magazine, FDA and CDC
adapters recognizes every name of the spec's 15-name vocabulary (returning a
canonical form equal to it up to case); the FSIS adapter's copy recognizes all
of them except Bacillus cereus and Yersinia, on which it returns null. -/
theorem pathogen_vocab_coverage :
    (SPEC_VOCAB.all (fun v =>
      match extractPathogen v with
      | some canon => strLower canon == strLower v
      | none => false)) = true
    ∧ ((SPEC_VOCAB.filter (fun v => v != "Bacillus cereus" && v != "Yersinia")).all
        (fun v =>
      match fsis_extractPathogen v with
      | some canon => strLower canon == strLower v
      | none => false)) = true
    ∧ fsis_extractPathogen "Bacillus cereus" = none
    ∧ fsis_extractPathogen "Yersinia" = none := by
  decide

/-- C6 counterexample: "12 people hospitalized" contains "hospitalized" and
none of the high-severity keywords, yet the CDC adapter's `determineSeverity`
returns "high" (it maps hospitalized/hospital to high), refuting the claim that
all three keyword heuristics return "medium" on such texts. -/
theorem cdc_hospitalized_severity_cex :
    determineSeverity_cdc "12 people hospitalized" = "high"
    ∧ hasSubStr "hospitalized" (strLower "12 people hospitalized") = true
    ∧ hasSubStr "death" (strLower "12 people hospitalized") = false
    ∧ hasSubStr "died" (strLower "12 people hospitalized") = false
    ∧ hasSubStr "fatal" (strLower "12 people hospitalized") = false
    ∧ hasSubStr "class i" (strLower "12 people hospitalized") = false := by
  decide

/-- C6 amended: on text containing "hospitalized" and none of death/died/fatal
(nor "class i"), the news and magazine severity heuristics return "medium", but
the CDC heuristic returns "high" — hospitalization maps to medium only in the
news and magazine adapters. -/
theorem severity_hospitalized_medium :
    (∀ title description,
      hasSubStr "hospitalized" (strLower (title ++ " " ++ description)) = true →
      hasSubStr "death" (strLower (title ++ " " ++ description)) = false →
      hasSubStr "died" (strLower (title ++ " " ++ description)) = false →
      hasSubStr "fatal" (strLower (title ++ " " ++ description)) = false →
      hasSubStr "class i" (strLower (title ++ " " ++ description)) = false →
      determineSeverity_fsn title description = "medium"
      ∧ determineSeverity_fsm title description = "medium")
    ∧ (∀ text, text ≠ "" →
      hasSubStr "hospitalized" (strLower text) = true →
      hasSubStr "death" (strLower text) = false →
      hasSubStr "died" (strLower text) = false →
      hasSubStr "fatal" (strLower text) = false →
      determineSeverity_cdc text = "high") := by
  constructor
  · intro title description h1 h2 h3 h4 h5
    constructor
    · simp [determineSeverity_fsn, h1, h2, h3, h4, h5]
    · simp [determineSeverity_fsm, h1, h2, h3, h4, h5]
  · intro text hne h1 h2 h3 h4
    simp [determineSeverity_cdc, hne, h1, h2, h3, h4]

theorem severity_hospitalized_medium_witness :
    (determineSeverity_fsn "12 sickened" "3 hospitalized in outbreak" = "medium"
      ∧ determineSeverity_fsm "12 sickened" "3 hospitalized in outbreak" = "medium")
    ∧ determineSeverity_cdc "3 hospitalized in outbreak" = "high" :=
  ⟨severity_hospitalized_medium.1 "12 sickened" "3 hospitalized in outbreak"
      (by decide) (by decide) (by decide) (by decide) (by decide),
   severity_hospitalized_medium.2 "3 hospitalized in outbreak"
      (by decide) (by decide) (by decide) (by decide) (by decide)⟩

/-- C7 counterexample: a primary item with `case_count` 0 does not keep its
value — 0 is falsy, so `!merged.case_count` holds and the secondary's 5 fills
in, refuting "primary's non-null value is kept ... in particular for the
integer 0". -/
theorem mergeItems_case_count_zero_cex :
    (mergeItems { case_count := some 0 } { case_count := some 5 }).case_count = some 5
    ∧ (mergeItems { case_count := some 0 } { case_count := some 5 }).case_count
        ≠ ({ case_count := some 0 : MediaItem }).case_count := by
  decide

/-- C7 amended: for the single-valued optional fields, `mergeItems` keeps
primary's value whenever that value is JavaScript-truthy (non-null, and not ""
for the string fields, not 0 for `case_count`; any non-null `states` array is
truthy); a primary `case_count` of 0 or empty-string field is treated as absent
and may be overwritten. -/
theorem mergeItems_primary_truthy_wins (p s : MediaItem) :
    (jsTruthyStr p.pathogen = true → (mergeItems p s).pathogen = p.pathogen)
    ∧ (jsTruthyStr p.product = true → (mergeItems p s).product = p.product)
    ∧ (p.states.isSome = true → (mergeItems p s).states = p.states)
    ∧ (jsTruthyStr p.recall_number = true → (mergeItems p s).recall_number = p.recall_number)
    ∧ (jsTruthyStr p.classification = true → (mergeItems p s).classification = p.classification)
    ∧ (jsTruthyInt p.case_count = true → (mergeItems p s).case_count = p.case_count)
    ∧ (jsTruthyStr p.recalling_firm = true → (mergeItems p s).recalling_firm = p.recalling_firm) := by
  refine ⟨?_, ?_, ?_, ?_, ?_, ?_, ?_⟩ <;> intro h <;>
    simp [mergeItems, fillStr, fillInt, fillArr, h] <;>
    (intro hnone hs; rw [hnone] at h; simp at h)

theorem mergeItems_primary_truthy_wins_witness :
    (mergeItems { pathogen := some "Salmonella" } { pathogen := some "Listeria" }).pathogen
      = some "Salmonella"
    ∧ (mergeItems { case_count := some 7 } { case_count := some 9 }).case_count = some 7 :=
  ⟨(mergeItems_primary_truthy_wins { pathogen := some "Salmonella" }
      { pathogen := some "Listeria" }).1 (by decide),
   (mergeItems_primary_truthy_wins { case_count := some 7 }
      { case_count := some 9 }).2.2.2.2.2.1 (by decide)⟩

/-- C9: merge is idempotent on source sets — re-merging an already-merged item
with one of its inputs leaves the `sources` and `source_urls` sets unchanged
(both sides are set-unions of the same underlying elements). -/
theorem mergeItems_idempotent_source_sets (A B : MediaItem) :
    (∀ x, x ∈ (mergeItems (mergeItems A B) B).sources ↔ x ∈ (mergeItems A B).sources)
    ∧ (∀ u, u ∈ (mergeItems (mergeItems A B) B).source_urls
        ↔ u ∈ (mergeItems A B).source_urls) := by
  constructor
  · intro x
    simp only [mergeItems, mem_dedupKeep, List.mem_append]
    tauto
  · intro u
    simp only [mergeItems, mem_dedupKeep, List.mem_append]
    tauto

/-- C10: every item of the FDA recall adapter has a non-null date; when both
raw date fields fail `formatDate` (missing or not 8 characters), the item's
date falls back to the fetch-time current date `today`. -/
theorem fda_date_never_null (today : String)
    (resp : Except String (Option (List FDARaw))) (r : FDARaw) :
    (∀ i ∈ fetchFDARecalls_pure today resp, i.date.isSome = true)
    ∧ (formatDate r.report_date = none → formatDate r.recall_initiation_date = none →
        (buildFDA today r).date = some today) := by
  constructor
  · intro i hi
    cases resp with
    | error e => simp [fetchFDARecalls_pure] at hi
    | ok results =>
      simp only [fetchFDARecalls_pure, List.mem_map] at hi
      obtain ⟨r0, _, rfl⟩ := hi
      show (buildFDA today r0).date.isSome = true
      simp only [buildFDA]
      exact jsOrStr_isSome_right _ _ (jsOrStr_isSome_right _ _ rfl)
  · intro h1 h2
    simp [buildFDA, h1, h2, jsOrStr, jsTruthyStr]

theorem fda_date_never_null_witness :
    ((buildFDA "2025-06-01" ({ report_date := some "20250115" } : FDARaw)).date).isSome = true
    ∧ (buildFDA "2025-06-01" ({ } : FDARaw)).date = some "2025-06-01" :=
  ⟨(fda_date_never_null "2025-06-01"
      (Except.ok (some [{ report_date := some "20250115" }])) { }).1 _ (by decide),
   (fda_date_never_null "2025-06-01" (Except.ok none) { }).2 (by decide) (by decide)⟩

-- ─── Heuristic range lemmas ───

theorem categorizeArticle_mem (t d : String) (c : List String) :
    categorizeArticle t d c = "Recall" ∨ categorizeArticle t d c = "Outbreak"
    ∨ categorizeArticle t d c = "Alert" ∨ categorizeArticle t d c = "Policy"
    ∨ categorizeArticle t d c = "Research" := by
  unfold categorizeArticle
  dsimp only
  split_ifs <;> simp

theorem determineSeverity_fsn_mem (t d : String) :
    determineSeverity_fsn t d = "high" ∨ determineSeverity_fsn t d = "medium"
    ∨ determineSeverity_fsn t d = "low" := by
  unfold determineSeverity_fsn
  dsimp only
  split_ifs <;> simp

theorem determineSeverity_fsm_mem (t d : String) :
    determineSeverity_fsm t d = "high" ∨ determineSeverity_fsm t d = "medium"
    ∨ determineSeverity_fsm t d = "low" := by
  unfold determineSeverity_fsm
  dsimp only
  split_ifs <;> simp

theorem determineSeverity_cdc_mem (t : String) :
    determineSeverity_cdc t = "high" ∨ determineSeverity_cdc t = "medium"
    ∨ determineSeverity_cdc t = "low" := by
  unfold determineSeverity_cdc
  dsimp only
  split_ifs <;> simp

theorem classificationToSeverity_mem (c : Option String) :
    classificationToSeverity c = "high" ∨ classificationToSeverity c = "medium"
    ∨ classificationToSeverity c = "low" := by
  unfold classificationToSeverity
  dsimp only
  split_ifs <;> simp

theorem DEFAULT_TOPICS_values (t c : String) (h : DEFAULT_TOPICS t = some c) :
    c = "Recall" ∨ c = "Research" ∨ c = "Alert" := by
  unfold DEFAULT_TOPICS at h
  split at h <;> simp_all

-- ─── Builder invariant lemmas ───

theorem buildFSN_invariant (cutoff : Int) (item : RSSRaw) (i : MediaItem)
    (h : buildFSN cutoff item = some i) : itemInvariant i := by
  unfold buildFSN at h
  split at h
  · exact absurd h (by simp)
  · split at h
    · exact absurd h (by simp)
    · injection h with h
      subst h
      exact ⟨categorizeArticle_mem _ _ _, determineSeverity_fsn_mem _ _, by simp, by simp⟩

theorem buildFDA_invariant (today : String) (r : FDARaw) :
    itemInvariant (buildFDA today r) := by
  unfold buildFDA
  exact ⟨Or.inl rfl, classificationToSeverity_mem _, by simp, by simp⟩

theorem buildFSISScrape_invariant (cutoff : Int) (row : FSISRow) (i : MediaItem)
    (h : buildFSISScrape cutoff row = some i) : itemInvariant i := by
  unfold buildFSISScrape at h
  split at h
  · exact absurd h (by simp)
  · split at h
    · injection h with h
      subst h
      exact ⟨Or.inl rfl, Or.inr (Or.inl rfl), by simp, by simp⟩
    · exact absurd h (by simp)

theorem buildFSISFallback_invariant (today : String) (r : FDARaw) :
    itemInvariant (buildFSISFallback today r) := by
  unfold buildFSISFallback
  exact ⟨Or.inl rfl, classificationToSeverity_mem _, by simp, by simp⟩

theorem buildCDCMedia_invariant (cutoff : Int) (item : CDCMediaRaw) (i : MediaItem)
    (h : buildCDCMedia cutoff item = some i) : itemInvariant i := by
  unfold buildCDCMedia at h
  split at h
  · exact absurd h (by simp)
  · split at h
    · exact absurd h (by simp)
    · dsimp only at h
      split at h
      · exact absurd h (by simp)
      · injection h with h
        subst h
        exact ⟨Or.inr (Or.inl rfl), determineSeverity_cdc_mem _, by simp, by simp⟩

theorem buildCDCPage_invariant (anchor : CDCAnchorRaw) (i : MediaItem)
    (h : buildCDCPage anchor = some i) : itemInvariant i := by
  unfold buildCDCPage at h
  dsimp only at h
  by_cases hc : (cdcPageRelevant (stripHtml anchor.inner)
      && decide ((stripHtml anchor.inner).length > 15)) = true
  · rw [if_pos hc] at h
    injection h with h
    subst h
    exact ⟨Or.inr (Or.inl rfl), determineSeverity_cdc_mem _, by simp, by simp⟩
  · rw [if_neg hc] at h
    exact absurd h (by simp)

theorem buildCDCPage_date_none (anchor : CDCAnchorRaw) (i : MediaItem)
    (h : buildCDCPage anchor = some i) : i.date = none := by
  unfold buildCDCPage at h
  dsimp only at h
  by_cases hc : (cdcPageRelevant (stripHtml anchor.inner)
      && decide ((stripHtml anchor.inner).length > 15)) = true
  · rw [if_pos hc] at h
    injection h with h
    subst h
    rfl
  · rw [if_neg hc] at h
    exact absurd h (by simp)

theorem buildCDCRss_invariant (cutoff : Int) (item : RSSRaw) (i : MediaItem)
    (h : buildCDCRss cutoff item = some i) : itemInvariant i := by
  unfold buildCDCRss at h
  split at h
  · exact absurd h (by simp)
  · split at h
    · exact absurd h (by simp)
    · dsimp only at h
      split at h
      · exact absurd h (by simp)
      · injection h with h
        subst h
        exact ⟨Or.inr (Or.inl rfl), determineSeverity_cdc_mem _, by simp, by simp⟩

-- ─── Adapter-level invariant lemmas ───

theorem fetchFSN_pure_invariant (cutoff : Int) (items : List RSSRaw) :
    ∀ i ∈ fetchFSN_pure cutoff items, itemInvariant i := by
  intro i hi
  obtain ⟨a, _, ha⟩ := List.mem_filterMap.mp hi
  exact buildFSN_invariant cutoff a i ha

theorem fsmProcessItems_invariant (cutoff : Int) (cd tn : String)
    (hcd : cd = "Recall" ∨ cd = "Research" ∨ cd = "Alert") :
    ∀ (items : List RSSRaw) (seen : List String) (i : MediaItem),
      i ∈ (fsmProcessItems cutoff cd tn items seen).1 → itemInvariant i := by
  intro items
  induction items with
  | nil => intro seen i h; simp [fsmProcessItems] at h
  | cons item rest ih =>
    intro seen i h
    unfold fsmProcessItems at h
    split at h
    · exact ih _ _ h
    · split at h
      · exact ih _ _ h
      · dsimp only at h
        split at h
        · exact ih _ _ h
        · rcases List.mem_cons.mp h with h | h
          · subst h
            refine ⟨?_, determineSeverity_fsm_mem _ _, by simp, by simp⟩
            rcases hcd with h | h | h
            · exact Or.inl h
            · exact Or.inr (Or.inr (Or.inr (Or.inr h)))
            · exact Or.inr (Or.inr (Or.inl h))
          · exact ih _ _ h

theorem fsmProcessFeeds_invariant (cutoff : Int) :
    ∀ (feeds : List (String × Except String (List RSSRaw))) (seen : List String)
      (i : MediaItem), i ∈ fsmProcessFeeds cutoff feeds seen → itemInvariant i := by
  intro feeds
  induction feeds with
  | nil => intro seen i h; simp [fsmProcessFeeds] at h
  | cons fd rest ih =>
    obtain ⟨topicId, feed⟩ := fd
    intro seen i h
    cases feed with
    | error e => exact ih _ _ (by simpa [fsmProcessFeeds] using h)
    | ok items =>
      unfold fsmProcessFeeds at h
      rcases List.mem_append.mp h with h | h
      · have hcd : (match DEFAULT_TOPICS topicId with
            | some c => c
            | none => "Research") = "Recall"
            ∨ (match DEFAULT_TOPICS topicId with
            | some c => c
            | none => "Research") = "Research"
            ∨ (match DEFAULT_TOPICS topicId with
            | some c => c
            | none => "Research") = "Alert" := by
          cases hdt : DEFAULT_TOPICS topicId with
          | none => simp
          | some c => simpa using DEFAULT_TOPICS_values topicId c hdt
        exact fsmProcessItems_invariant cutoff _ _ hcd items seen i h
      · exact ih _ _ h

theorem fetchFSM_pure_invariant (cutoff : Int)
    (feeds : List (String × Except String (List RSSRaw))) :
    ∀ i ∈ fetchFSM_pure cutoff feeds, itemInvariant i := by
  intro i hi
  exact fsmProcessFeeds_invariant cutoff feeds [] i
    ((mem_sortByLt fsmSortLt i _).mp hi)

theorem fetchFDARecalls_pure_invariant (today : String)
    (resp : Except String (Option (List FDARaw))) :
    ∀ i ∈ fetchFDARecalls_pure today resp, itemInvariant i := by
  intro i hi
  cases resp with
  | error e => simp [fetchFDARecalls_pure] at hi
  | ok results =>
    simp only [fetchFDARecalls_pure, List.mem_map] at hi
    obtain ⟨r, _, rfl⟩ := hi
    exact buildFDA_invariant today r

theorem fetchFSISRecalls_pure_invariant (cutoff : Int) (today : String)
    (scrapeFetch : Except String (List FSISRow))
    (fdaFetch : Except String (Option (List FDARaw))) :
    ∀ i ∈ fetchFSISRecalls_pure cutoff today scrapeFetch fdaFetch, itemInvariant i := by
  intro i hi
  unfold fetchFSISRecalls_pure at hi
  split at hi
  · next recalls heq =>
    unfold tryScrapeFSIS_pure at heq
    split at heq
    · exact absurd heq (by simp)
    · dsimp only at heq
      split at heq
      · injection heq with heq
        subst heq
        obtain ⟨row, _, hrow⟩ := List.mem_filterMap.mp hi
        exact buildFSISScrape_invariant cutoff row i hrow
      · exact absurd heq (by simp)
  · unfold tryOpenFDAFallback_pure at hi
    split at hi
    · simp at hi
    · simp only [List.mem_map] at hi
      obtain ⟨r, _, rfl⟩ := hi
      exact buildFSISFallback_invariant today r

theorem cdcMediaLoop_invariant (cutoff : Int) :
    ∀ (items : List CDCMediaRaw) (seen : List Int) (i : MediaItem),
      i ∈ (cdcMediaLoop cutoff items seen).1 → itemInvariant i := by
  intro items
  induction items with
  | nil => intro seen i h; simp [cdcMediaLoop] at h
  | cons item rest ih =>
    intro seen i h
    unfold cdcMediaLoop at h
    split at h
    · exact ih _ _ h
    · dsimp only at h
      split at h
      · exact ih _ _ h
      · rename_i built hbuilt
        dsimp only at h
        rcases List.mem_cons.mp h with h | h
        · subst h
          exact buildCDCMedia_invariant cutoff item _ hbuilt
        · exact ih _ _ h

theorem tryCDCMediaAPI_pure_invariant (cutoff : Int) :
    ∀ (queries : List (Except String (List CDCMediaRaw))) (seen : List Int)
      (i : MediaItem), i ∈ tryCDCMediaAPI_pure cutoff queries seen → itemInvariant i := by
  intro queries
  induction queries with
  | nil => intro seen i h; simp [tryCDCMediaAPI_pure] at h
  | cons q rest ih =>
    intro seen i h
    cases q with
    | error e => exact ih _ _ (by simpa [tryCDCMediaAPI_pure] using h)
    | ok items =>
      unfold tryCDCMediaAPI_pure at h
      dsimp only at h
      rcases List.mem_append.mp h with h | h
      · exact cdcMediaLoop_invariant cutoff items seen i h
      · exact ih _ _ h

theorem tryCDCOutbreakPages_pure_invariant :
    ∀ (pages : List (Except String (List CDCAnchorRaw))) (i : MediaItem),
      i ∈ tryCDCOutbreakPages_pure pages → itemInvariant i := by
  intro pages
  induction pages with
  | nil => intro i h; simp [tryCDCOutbreakPages_pure] at h
  | cons p rest ih =>
    intro i h
    cases p with
    | error e => exact ih i (by simpa [tryCDCOutbreakPages_pure] using h)
    | ok anchors =>
      unfold tryCDCOutbreakPages_pure at h
      dsimp only at h
      split at h
      · obtain ⟨a, _, ha⟩ := List.mem_filterMap.mp h
        exact buildCDCPage_invariant a i ha
      · exact ih i h

theorem tryCDCOutbreakPages_pure_undated :
    ∀ (pages : List (Except String (List CDCAnchorRaw))) (i : MediaItem),
      i ∈ tryCDCOutbreakPages_pure pages → i.date = none := by
  intro pages
  induction pages with
  | nil => intro i h; simp [tryCDCOutbreakPages_pure] at h
  | cons p rest ih =>
    intro i h
    cases p with
    | error e => exact ih i (by simpa [tryCDCOutbreakPages_pure] using h)
    | ok anchors =>
      unfold tryCDCOutbreakPages_pure at h
      dsimp only at h
      split at h
      · obtain ⟨a, _, ha⟩ := List.mem_filterMap.mp h
        exact buildCDCPage_date_none a i ha
      · exact ih i h

theorem tryCDCRSS_pure_invariant (cutoff : Int) :
    ∀ (feeds : List (Except String (List RSSRaw))) (i : MediaItem),
      i ∈ tryCDCRSS_pure cutoff feeds → itemInvariant i := by
  intro feeds
  induction feeds with
  | nil => intro i h; simp [tryCDCRSS_pure] at h
  | cons f rest ih =>
    intro i h
    cases f with
    | error e => exact ih i (by simpa [tryCDCRSS_pure] using h)
    | ok items =>
      unfold tryCDCRSS_pure at h
      obtain ⟨a, _, ha⟩ := List.mem_filterMap.mp h
      exact buildCDCRss_invariant cutoff a i ha

theorem fetchCDCOutbreaks_pure_invariant (since : Option String) (days : Int)
    (cutoff : Int) (queries : List (Except String (List CDCMediaRaw)))
    (pages : List (Except String (List CDCAnchorRaw)))
    (feeds : List (Except String (List RSSRaw))) :
    ∀ i ∈ fetchCDCOutbreaks_pure since days cutoff queries pages feeds,
      itemInvariant i := by
  intro i hi
  unfold fetchCDCOutbreaks_pure fetchCDCOutbreaks_combine at hi
  have hi2 := mem_cdcDedupByKey i _ _ hi
  rcases List.mem_append.mp hi2 with h | h
  · rcases List.mem_append.mp h with h | h
    · exact tryCDCMediaAPI_pure_invariant cutoff queries [] i h
    · by_cases hw : (!jsTruthyStr since && decide (days ≤ 1)) = true
      · rw [if_pos hw] at h
        exact tryCDCOutbreakPages_pure_invariant pages i (List.mem_filter.mp h).1
      · rw [if_neg hw] at h
        exact tryCDCOutbreakPages_pure_invariant pages i h
  · exact tryCDCRSS_pure_invariant cutoff feeds i h

/-- C3: every item produced by any of the five adapters — over arbitrary fetched
raw records and fetch outcomes — has a category in {Recall, Outbreak, Alert,
Policy, Research}, a severity in {high, medium, low}, and non-empty `sources`
and `source_urls` lists. -/
theorem adapter_item_invariants :
    (∀ cutoff items, ∀ i ∈ fetchFSN_pure cutoff items, itemInvariant i)
    ∧ (∀ cutoff feeds, ∀ i ∈ fetchFSM_pure cutoff feeds, itemInvariant i)
    ∧ (∀ today resp, ∀ i ∈ fetchFDARecalls_pure today resp, itemInvariant i)
    ∧ (∀ cutoff today scrapeFetch fdaFetch,
        ∀ i ∈ fetchFSISRecalls_pure cutoff today scrapeFetch fdaFetch, itemInvariant i)
    ∧ (∀ since days cutoff queries pages feeds,
        ∀ i ∈ fetchCDCOutbreaks_pure since days cutoff queries pages feeds,
          itemInvariant i) :=
  ⟨fetchFSN_pure_invariant, fetchFSM_pure_invariant, fetchFDARecalls_pure_invariant,
   fetchFSISRecalls_pure_invariant, fetchCDCOutbreaks_pure_invariant⟩

theorem adapter_item_invariants_witness :
    itemInvariant (buildFDA "2025-06-02"
      ({ classification := some "Class I", recalling_firm := some "Acme Foods" } : FDARaw)) :=
  adapter_item_invariants.2.2.1 "2025-06-02"
    (Except.ok (some [{ classification := some "Class I", recalling_firm := some "Acme Foods" }]))
    _ (by decide)

/-- Helper for C8: under a short window every listing-page item being undated
empties the page contribution and hence the whole combine of empty media and
RSS contributions. -/
theorem combine_short_window_empty (days : Int) (P : List MediaItem)
    (hdays : days ≤ 1) (hP : ∀ i ∈ P, i.date = none) :
    fetchCDCOutbreaks_combine none days [] P [] = [] := by
  unfold fetchCDCOutbreaks_combine
  have hcond : (!jsTruthyStr (none : Option String) && decide (days ≤ 1)) = true := by
    simp [jsTruthyStr, hdays]
  rw [if_pos hcond]
  have hfilter : P.filter (fun i => jsTruthyStr i.date) = [] := by
    rw [List.filter_eq_nil_iff]
    intro a ha
    rw [hP a ha]
    simp [jsTruthyStr]
  rw [hfilter]
  rfl

/-- C8: on a CDC fetch with `days ≤ 1` and no `since`, every item surviving the
combine either has a truthy date or came from the media-API or RSS strategies —
undated listing-page items are excluded; in particular, when the other two
strategies yield nothing and all listing-page items are undated the adapter's
result is empty, and this extends to the full adapter core, whose listing-page
strategy only ever produces undated items. -/
theorem cdc_short_window_undated_dropped (days : Int)
    (mediaItems pageItems rssItems : List MediaItem) (hdays : days ≤ 1) :
    (∀ i ∈ fetchCDCOutbreaks_combine none days mediaItems pageItems rssItems,
        i ∈ mediaItems ∨ i ∈ rssItems ∨ jsTruthyStr i.date = true)
    ∧ ((∀ i ∈ pageItems, i.date = none) → mediaItems = [] → rssItems = [] →
        fetchCDCOutbreaks_combine none days mediaItems pageItems rssItems = [])
    ∧ (∀ cutoff queries pages feeds,
        tryCDCMediaAPI_pure cutoff queries [] = [] →
        tryCDCRSS_pure cutoff feeds = [] →
        fetchCDCOutbreaks_pure none days cutoff queries pages feeds = []) := by
  have hcond : (!jsTruthyStr (none : Option String) && decide (days ≤ 1)) = true := by
    simp [jsTruthyStr, hdays]
  refine ⟨?_, ?_, ?_⟩
  · intro i hi
    unfold fetchCDCOutbreaks_combine at hi
    rw [if_pos hcond] at hi
    have hi2 := mem_cdcDedupByKey i _ _ hi
    rcases List.mem_append.mp hi2 with h | h
    · rcases List.mem_append.mp h with h | h
      · exact Or.inl h
      · exact Or.inr (Or.inr (List.mem_filter.mp h).2)
    · exact Or.inr (Or.inl h)
  · intro hall h1 h2
    subst h1; subst h2
    exact combine_short_window_empty days pageItems hdays hall
  · intro cutoff queries pages feeds hm hr
    unfold fetchCDCOutbreaks_pure
    rw [hm, hr]
    exact combine_short_window_empty days _ hdays
      (tryCDCOutbreakPages_pure_undated pages)

theorem cdc_short_window_undated_dropped_witness :
    fetchCDCOutbreaks_combine none 1 []
      [{ title := "Salmonella outbreak investigation page", date := none }] [] = [] :=
  (cdc_short_window_undated_dropped 1 []
    [{ title := "Salmonella outbreak investigation page", date := none }] []
    (by decide)).2.1 (by decide) rfl rfl

end DailyDebrief
